import Mathlib

/-!
Verification development for the mdreg repository.

The repository's visible source is the example script
docs/examples/use_cases/plot_poor_model_fitting.py.  The model-driven
registration (MDR) orchestrator it calls (mdreg.fit) is not part of the
visible sources, so the orchestrator, the SignalModel and Coregistrar
capabilities, the ConvergenceTracker, and the error-handling policy are
modelled from the specification (spec.md sections 3, 4, 6, 7, 8).
The goodness-of-fit computation (chi_squared, script line 208) and the
panel-grid plotting logic (script lines 210-240) are embedded directly
from the script.

Volume series are kept in voxel-major layout: a series `s : VolumeSeries`
stores, for each voxel index `v`, the list of values of that voxel across
the acquisition parameter (time or flip angle).  The spatial dimensions of
the arrays are flattened into the single voxel index.
-/

namespace Mdreg

/-- A spatial frame, flattened to one value per voxel. -/
abbrev Frame := List ℤ

/-- A volume series in voxel-major layout: `s.getD v []` is the series of
values of voxel `v` across the acquisition parameter. -/
abbrev VolumeSeries := List (List ℤ)

/-- A deformation field for one frame: one displacement vector
(2 or 3 components) per voxel. -/
abbrev DefoField := List (List ℤ)

/-- Series length (number of frames) of a voxel-major series, read off the
first voxel. -/
def seriesLen (s : VolumeSeries) : ℕ := (s.getD 0 []).length

/-- Frame `t` of a voxel-major series: the value of each voxel at series
index `t`. -/
def frameAt (s : VolumeSeries) (t : ℕ) : Frame := s.map (fun vox => vox.getD t 0)

/-- Well-formed series with `V` voxels and series length `T`: all voxels
share the same series length (rectangular array). -/
@[reducible] def WF (s : VolumeSeries) (V T : ℕ) : Prop :=
  s.length = V ∧ ∀ vox ∈ s, vox.length = T

/-- Modelled from the spec: the SignalModel capability (spec 4.1), missing
from the visible sources.  `fitVoxel v ts` fits one voxel's series `ts`
(voxel index `v`), returning the reconstructed series together with that
voxel's fitted parameter values, or `none` for a per-voxel ModelFitError. -/
structure SignalModel where
  fitVoxel : ℕ → List ℤ → Option (List ℤ × List ℤ)

/-- Modelled from the spec: the Coregistrar capability (spec 4.2), missing
from the visible sources.  `register fitted raw` registers the model-fitted
frame against the raw frame and returns the deformation field; `warp d f`
applies a deformation field to a frame. -/
structure Coregistrar where
  register : Frame → Frame → DefoField
  warp : DefoField → Frame → Frame

/-- Modelled from the spec: the convergence tolerance configuration value,
a finite value or plus infinity (spec 6 and 8). -/
inductive Tolerance where
  | finite (q : ℤ)
  | inf

/-- Comparison `metric < tolerance`: every finite metric value is below the
infinite tolerance. -/
def tolLt (m : ℤ) : Tolerance → Bool
  | .finite q => decide (m < q)
  | .inf => true

/-- A tolerance strictly greater than zero. -/
def tolPos : Tolerance → Prop
  | .finite q => 0 < q
  | .inf => True

/-- Modelled from the spec: the MDR loop configuration (spec 6): signal
model, registration backend, displacement dimension, iteration cap and
convergence tolerance. -/
structure Config where
  model : SignalModel
  coreg : Coregistrar
  dim : ℕ
  maxit : ℕ
  tol : Tolerance

/-- Modelled from the spec: one voxel of the orchestrator's fitting step
with the per-voxel fallback policy (spec 4.1 and 7): a ModelFitError at a
voxel is recovered locally by substituting the raw value of that voxel
(with empty parameters) instead of aborting the loop. -/
def fitVoxelOut (m : SignalModel) (raw cur : VolumeSeries) (v : ℕ) : List ℤ × List ℤ :=
  match m.fitVoxel v (cur.getD v []) with
  | some fp => fp
  | none => (raw.getD v [], [])

/-- Modelled from the spec: the fitted series produced by the orchestrator's
fitting step, one reconstructed series per voxel of the input. -/
def fitSeries (m : SignalModel) (raw cur : VolumeSeries) : VolumeSeries :=
  (List.range cur.length).map (fun v => (fitVoxelOut m raw cur v).1)

/-- Modelled from the spec: the per-voxel fitted parameters produced by the
orchestrator's fitting step. -/
def fitParams (m : SignalModel) (raw cur : VolumeSeries) : List (List ℤ) :=
  (List.range cur.length).map (fun v => (fitVoxelOut m raw cur v).2)

/-- Executable maximum on integers. -/
def qmax (a b : ℤ) : ℤ := if a ≤ b then b else a

/-- Executable absolute value on integers. -/
def qabs (a : ℤ) : ℤ := if a < 0 then -a else a

/-- Largest componentwise absolute difference between two displacement
vectors. -/
def vecDiffMax (p c : List ℤ) : ℤ :=
  ((p.zip c).map (fun a => qabs (a.1 - a.2))).foldr qmax 0

/-- Largest displacement change between two deformation fields. -/
def fieldDiffMax (p c : DefoField) : ℤ :=
  ((p.zip c).map (fun a => vecDiffMax a.1 a.2)).foldr qmax 0

/-- Modelled from the spec: the ConvergenceTracker's scalar distance between
consecutive deformation-field sets (spec 4.3 and 4.4): the maximum
displacement-vector component change across all voxels and frames. -/
def metricDist (p c : List DefoField) : ℤ :=
  ((p.zip c).map (fun a => fieldDiffMax a.1 a.2)).foldr qmax 0

/-- Output of one iteration of the MDR loop body. -/
structure IterOut where
  fitted : VolumeSeries
  params : List (List ℤ)
  defos : List DefoField
  coreg : VolumeSeries

/-- Modelled from the spec: one body of the Iterating state (spec 4.3):
(1) SignalModel.fit on the current coregistered series, (2) for each frame,
register the fitted frame against the raw frame and apply the resulting
deformation field to the raw frame, reassembling the new coregistered
series voxel by voxel. -/
def iterStep (cfg : Config) (raw cur : VolumeSeries) : IterOut :=
  { fitted := fitSeries cfg.model raw cur
    params := fitParams cfg.model raw cur
    defos := (List.range (seriesLen raw)).map (fun t =>
      cfg.coreg.register (frameAt (fitSeries cfg.model raw cur) t) (frameAt raw t))
    coreg := (List.range raw.length).map (fun v => (List.range (seriesLen raw)).map (fun t =>
      (cfg.coreg.warp
        (cfg.coreg.register (frameAt (fitSeries cfg.model raw cur) t) (frameAt raw t))
        (frameAt raw t)).getD v 0)) }

/-- Modelled from the spec: the zeroth estimate's identity (all-zero)
deformation fields set at Init (spec 4.3). -/
def initDefos (cfg : Config) (raw : VolumeSeries) : List DefoField :=
  (List.range (seriesLen raw)).map (fun _ =>
    List.replicate raw.length (List.replicate cfg.dim 0))

/-- Modelled from the spec: the terminal states of the orchestrator state
machine (spec 4.3). -/
inductive FinalState where
  | Converged
  | MaxIterReached
  deriving DecidableEq

/-- Modelled from the spec: the final output of the MDR loop (spec 4.3 Done
and 6): coregistered series, deformation fields, fitted series and
parameters, together with the stop state, the number of iterations
performed and the last convergence metric. -/
structure MdrResult where
  coreg : VolumeSeries
  defos : List DefoField
  fitted : VolumeSeries
  params : List (List ℤ)
  state : FinalState
  iterations : ℕ
  metric : ℤ

/-- Modelled from the spec: the Iterating state of the MDR orchestrator
(spec 4.3), driven by the remaining iteration budget `fuel`.  Each pass runs
one iteration body, compares its deformation fields with the previous
iteration's, stops in `Converged` when the metric falls below the tolerance,
stops in `MaxIterReached` when the budget is exhausted (the hard stop), and
otherwise recurses on the new coregistered series. -/
def loopGo (cfg : Config) (raw : VolumeSeries) :
    ℕ → VolumeSeries → List DefoField → ℕ → MdrResult
  | 0, cur, prev, iter => ⟨cur, prev, cur, [], .MaxIterReached, iter, 0⟩
  | fuel + 1, cur, prev, iter =>
    if tolLt (metricDist prev (iterStep cfg raw cur).defos) cfg.tol then
      ⟨(iterStep cfg raw cur).coreg, (iterStep cfg raw cur).defos,
       (iterStep cfg raw cur).fitted, (iterStep cfg raw cur).params,
       .Converged, iter + 1, metricDist prev (iterStep cfg raw cur).defos⟩
    else if fuel = 0 then
      ⟨(iterStep cfg raw cur).coreg, (iterStep cfg raw cur).defos,
       (iterStep cfg raw cur).fitted, (iterStep cfg raw cur).params,
       .MaxIterReached, iter + 1, metricDist prev (iterStep cfg raw cur).defos⟩
    else loopGo cfg raw fuel (iterStep cfg raw cur).coreg (iterStep cfg raw cur).defos (iter + 1)

/-- Modelled from the spec: mdreg.fit, the MDR orchestrator entry point,
missing from the visible sources (spec 4.3): Init sets the coregistered
series to the raw series with identity (zero) deformation, then the loop
runs for at most `cfg.maxit` iterations. -/
def fit (cfg : Config) (raw : VolumeSeries) : MdrResult :=
  loopGo cfg raw cfg.maxit raw (initDefos cfg raw) 0

/-- numpy.divide with a `where` mask and no `out` argument, as used on
line 208 of plot_poor_model_fitting.py: elements where the mask is true are
the quotients, elements where the mask is false are left uninitialized, so
they hold whatever the freshly allocated buffer contains; `junk i` models
the arbitrary content of the uninitialized buffer at position `i`. -/
def npDivideWhere (junk : ℕ → ℚ) (num den : List ℚ) (mask : List Bool) : List ℚ :=
  (List.range num.length).map (fun i =>
    if mask.getD i false then num.getD i 0 / den.getD i 0 else junk i)

/-- chi_squared from plot_poor_model_fitting.py line 208, restricted to one
voxel: np.sum(np.divide((fit - array) ** 2, array, where=array != 0),
axis=-1) sums, over the series dimension, the squared residuals divided by
the raw values where the raw value is nonzero, and the uninitialized buffer
content where the raw value is zero. -/
def chi_squared (junk : ℕ → ℚ) (fitv arrv : List ℚ) : ℚ :=
  (npDivideWhere junk ((fitv.zip arrv).map (fun p => (p.1 - p.2) ^ 2)) arrv
    (arrv.map (fun a => decide (a ≠ 0)))).sum

/-- The full chi_squared map of line 208: one summed value per voxel, with
an independent uninitialized buffer per voxel. -/
def chi_squared_map (junk : ℕ → ℕ → ℚ) (fitted arr : List (List ℚ)) : List ℚ :=
  (List.range arr.length).map (fun v =>
    chi_squared (junk v) (fitted.getD v []) (arr.getD v []))

/-- grid_size from plot_poor_model_fitting.py line 212:
math.ceil(math.sqrt(num_slices)), the integer ceiling of the square root of
the number of slices. -/
def grid_size (num_slices : ℕ) : ℕ :=
  if Nat.sqrt num_slices * Nat.sqrt num_slices = num_slices then Nat.sqrt num_slices
  else Nat.sqrt num_slices + 1

/-- State of one panel of the goodness-of-fit figure: either it shows one
slice of the chi_squared map, or its axis is turned off. -/
inductive Panel where
  | rendered (slice : ℕ)
  | off
  deriving DecidableEq

/-- Row of panel `i`, from line 232 of plot_poor_model_fitting.py:
row = i // grid_size. -/
def panelRow (num_slices i : ℕ) : ℕ := i / grid_size num_slices

/-- Column of panel `i`, from line 233 of plot_poor_model_fitting.py:
col = i % grid_size. -/
def panelCol (num_slices i : ℕ) : ℕ := i % grid_size num_slices

/-- The plotting loop of lines 231-240 of plot_poor_model_fitting.py, as the
panel states it produces over the grid_size * grid_size panels.
plt.subplots(grid_size, grid_size) at line 220 is called with the default
squeeze=True, so when grid_size = 1 it returns a single scalar Axes object
rather than a 2-D array, and the first subscript axes1[row, col] at line 235
raises a TypeError before any slice is rendered: the loop produces no panel
states at all in that case (`none`).  When grid_size is at least 2 the axes
form a 2-D grid and the loop completes: panel `i` shows slice `i` when
i < num_slices, and is turned off otherwise. -/
def plotPanels (num_slices : ℕ) : Option (List Panel) :=
  if grid_size num_slices = 1 then none
  else some ((List.range (grid_size num_slices * grid_size num_slices)).map (fun i =>
    if i < num_slices then .rendered i else .off))

/-! ### Helper lemmas -/

/-- Reading a `List.range`-indexed map at an in-range position. -/
lemma getD_range_map {α : Type} (f : ℕ → α) (n i : ℕ) (d : α) (h : i < n) :
    ((List.range n).map f).getD i d = f i := by
  rw [List.getD_eq_getElem _ _ (by simpa using h)]
  simp

/-- Every pair produced by zipping a list with itself has equal components. -/
lemma fst_eq_snd_of_mem_zip_self {α : Type} :
    ∀ (l : List α) (p : α × α), p ∈ l.zip l → p.1 = p.2
  | [], p, h => by simp at h
  | x :: xs, p, h => by
    rw [List.zip_cons_cons, List.mem_cons] at h
    rcases h with h | h
    · simp [h]
    · exact fst_eq_snd_of_mem_zip_self xs p h

/-- A fold of `qmax` over zeros starting at zero is zero. -/
lemma foldr_max_eq_zero :
    ∀ l : List ℤ, (∀ x ∈ l, x = 0) → l.foldr qmax 0 = 0
  | [], _ => rfl
  | x :: xs, h => by
    have hx : x = 0 := h x (by simp)
    have hxs := foldr_max_eq_zero xs (fun y hy => h y (by simp [hy]))
    simp [hx, hxs, qmax]

lemma vecDiffMax_self (a : List ℤ) : vecDiffMax a a = 0 := by
  apply foldr_max_eq_zero
  intro x hx
  rcases List.mem_map.1 hx with ⟨p, hp, rfl⟩
  rw [fst_eq_snd_of_mem_zip_self a p hp]
  simp [qabs]

lemma fieldDiffMax_self (a : DefoField) : fieldDiffMax a a = 0 := by
  apply foldr_max_eq_zero
  intro x hx
  rcases List.mem_map.1 hx with ⟨p, hp, rfl⟩
  rw [fst_eq_snd_of_mem_zip_self a p hp]
  exact vecDiffMax_self _

/-- The convergence metric between a deformation-field set and itself is
zero. -/
lemma metricDist_self (d : List DefoField) : metricDist d d = 0 := by
  apply foldr_max_eq_zero
  intro x hx
  rcases List.mem_map.1 hx with ⟨p, hp, rfl⟩
  rw [fst_eq_snd_of_mem_zip_self d p hp]
  exact fieldDiffMax_self _

/-- A zero metric is below every strictly positive tolerance. -/
lemma tolLt_zero_of_pos : ∀ t : Tolerance, tolPos t → tolLt 0 t = true
  | .finite _, h => decide_eq_true h
  | .inf, _ => rfl

/-- Reading a well-formed series at an in-range voxel gives a series of
length `T`. -/
lemma getD_length_of_WF {s : VolumeSeries} {V T : ℕ} (h : WF s V T)
    {v : ℕ} (hv : v < V) : (s.getD v []).length = T := by
  have hv' : v < s.length := h.1 ▸ hv
  rw [List.getD_eq_getElem _ _ hv']
  exact h.2 _ (List.getElem_mem hv')

/-- A well-formed nonempty series has series length `T`. -/
lemma seriesLen_of_WF {s : VolumeSeries} {V T : ℕ} (h : WF s V T)
    (hV : 0 < V) : seriesLen s = T :=
  getD_length_of_WF h hV

/-- Reading frame `t` at voxel `v` gives the voxel's value at series
index `t`. -/
lemma frameAt_getD (s : VolumeSeries) (t v : ℕ) (hv : v < s.length) :
    (frameAt s t).getD v 0 = (s.getD v []).getD t 0 := by
  rw [frameAt, List.getD_eq_getElem _ _ (by simpa using hv), List.getElem_map,
    List.getD_eq_getElem _ _ hv]

/-- Rebuilding a list of length `T` from its positionwise reads gives the
list back. -/
lemma range_map_getD (l : List ℤ) (T : ℕ) (h : l.length = T) :
    (List.range T).map (fun t => l.getD t 0) = l := by
  apply List.ext_getElem (by simp [h])
  intro i h1 h2
  rw [List.getElem_map, List.getElem_range, List.getD_eq_getElem _ _ h2]

/-- The SignalModel contract of spec 4.1 for series of length `T`: a
successful per-voxel fit preserves the series length. -/
def ModelOk (m : SignalModel) (T : ℕ) : Prop :=
  ∀ v ts fp, ts.length = T → m.fitVoxel v ts = some fp → fp.1.length = T

lemma fitSeries_length (m : SignalModel) (raw cur : VolumeSeries) :
    (fitSeries m raw cur).length = cur.length := by
  simp [fitSeries]

/-- Shape preservation of the orchestrator's fitting step: under the
SignalModel contract, the fitted series is well-formed with the input's
shape. -/
lemma fitSeries_wf (m : SignalModel) (raw cur : VolumeSeries) (V T : ℕ)
    (hraw : WF raw V T) (hcur : WF cur V T) (hm : ModelOk m T) :
    WF (fitSeries m raw cur) V T := by
  constructor
  · simp [fitSeries, hcur.1]
  · intro vox hvox
    rcases List.mem_map.1 hvox with ⟨v, hv, rfl⟩
    have hvV : v < V := hcur.1 ▸ List.mem_range.1 hv
    rcases hfit : m.fitVoxel v (cur.getD v []) with _ | fp
    · rw [fitVoxelOut, hfit]
      exact getD_length_of_WF hraw hvV
    · rw [fitVoxelOut, hfit]
      exact hm v _ fp (getD_length_of_WF hcur hvV) hfit

/-- The fitted series reads back the per-voxel fit output. -/
lemma fitSeries_getD (m : SignalModel) (raw cur : VolumeSeries) (v : ℕ)
    (hv : v < cur.length) :
    (fitSeries m raw cur).getD v [] = (fitVoxelOut m raw cur v).1 := by
  rw [fitSeries, getD_range_map _ _ _ _ hv]

/-- The coregistered series assembled by one iteration body is always
well-formed with the raw series' shape. -/
lemma iterStep_coreg_wf (cfg : Config) (raw cur : VolumeSeries) :
    WF (iterStep cfg raw cur).coreg raw.length (seriesLen raw) := by
  constructor
  · simp [iterStep]
  · intro vox hvox
    rw [iterStep] at hvox
    rcases List.mem_map.1 hvox with ⟨v, _, rfl⟩
    simp

lemma iterStep_defos_length (cfg : Config) (raw cur : VolumeSeries) :
    (iterStep cfg raw cur).defos.length = seriesLen raw := by
  simp [iterStep]

lemma iterStep_params_length (cfg : Config) (raw cur : VolumeSeries) :
    (iterStep cfg raw cur).params.length = cur.length := by
  simp [iterStep, fitParams]

lemma iterStep_fitted_eq (cfg : Config) (raw cur : VolumeSeries) :
    (iterStep cfg raw cur).fitted = fitSeries cfg.model raw cur := rfl

/-- The loop never performs more iterations than the remaining budget. -/
lemma loopGo_iterations_le (cfg : Config) (raw : VolumeSeries) :
    ∀ (fuel : ℕ) (cur : VolumeSeries) (prev : List DefoField) (iter : ℕ),
      (loopGo cfg raw fuel cur prev iter).iterations ≤ iter + fuel
  | 0, cur, prev, iter => by
    rw [loopGo]
    show iter ≤ iter + 0
    omega
  | fuel + 1, cur, prev, iter => by
    rw [loopGo]
    split_ifs
    · show iter + 1 ≤ iter + (fuel + 1)
      omega
    · show iter + 1 ≤ iter + (fuel + 1)
      omega
    · exact le_trans
        (loopGo_iterations_le cfg raw fuel (iterStep cfg raw cur).coreg
          (iterStep cfg raw cur).defos (iter + 1)) (by omega)

/-- With a positive remaining budget the loop performs at least one more
iteration. -/
lemma loopGo_iterations_ge (cfg : Config) (raw : VolumeSeries) :
    ∀ (fuel : ℕ) (cur : VolumeSeries) (prev : List DefoField) (iter : ℕ),
      1 ≤ fuel → iter + 1 ≤ (loopGo cfg raw fuel cur prev iter).iterations
  | 0, _, _, _, h => by omega
  | fuel + 1, cur, prev, iter, _ => by
    rw [loopGo]
    split_ifs with h1 h2
    · exact le_refl _
    · exact le_refl _
    · exact le_trans (by omega)
        (loopGo_iterations_ge cfg raw fuel (iterStep cfg raw cur).coreg
          (iterStep cfg raw cur).defos (iter + 1) (by omega))

/-- Shape invariant of the loop: starting from a well-formed current
estimate, the final coregistered and fitted series are well-formed, and
with a positive budget the returned deformation fields have one field per
frame and the parameters one entry per voxel. -/
lemma loopGo_wf (cfg : Config) (raw : VolumeSeries) (V T : ℕ)
    (hraw : WF raw V T) (hV : 0 < V) (hm : ModelOk cfg.model T) :
    ∀ (fuel : ℕ) (cur : VolumeSeries) (prev : List DefoField) (iter : ℕ),
      WF cur V T →
      WF (loopGo cfg raw fuel cur prev iter).coreg V T ∧
      WF (loopGo cfg raw fuel cur prev iter).fitted V T ∧
      (1 ≤ fuel → (loopGo cfg raw fuel cur prev iter).defos.length = T ∧
        (loopGo cfg raw fuel cur prev iter).params.length = V)
  | 0, cur, prev, iter, hcur => by
    rw [loopGo]
    exact ⟨hcur, hcur, by omega⟩
  | fuel + 1, cur, prev, iter, hcur => by
    have hT : seriesLen raw = T := seriesLen_of_WF hraw hV
    have hco : WF (iterStep cfg raw cur).coreg V T := by
      have := iterStep_coreg_wf cfg raw cur
      rwa [hraw.1, hT] at this
    have hfi : WF (iterStep cfg raw cur).fitted V T := by
      rw [iterStep_fitted_eq]
      exact fitSeries_wf cfg.model raw cur V T hraw hcur hm
    rw [loopGo]
    split_ifs with h1 h2
    · exact ⟨hco, hfi, fun _ =>
        ⟨by rw [iterStep_defos_length, hT], by rw [iterStep_params_length, hcur.1]⟩⟩
    · exact ⟨hco, hfi, fun _ =>
        ⟨by rw [iterStep_defos_length, hT], by rw [iterStep_params_length, hcur.1]⟩⟩
    · have ih := loopGo_wf cfg raw V T hraw hV hm fuel (iterStep cfg raw cur).coreg
        (iterStep cfg raw cur).defos (iter + 1) hco
      exact ⟨ih.1, ih.2.1, fun _ => ih.2.2 (by omega)⟩

/-- Fallback invariant of the loop: if the signal model fails for voxel `v`
on every input, then the fitted series returned by the loop carries the raw
value of voxel `v` (the defined fallback), whatever iteration the loop
stopped at. -/
lemma loopGo_fitted_fallback (cfg : Config) (raw : VolumeSeries) (V T : ℕ)
    (hraw : WF raw V T) (hV : 0 < V) (hm : ModelOk cfg.model T)
    (v : ℕ) (hvV : v < V)
    (hfail : ∀ ts, cfg.model.fitVoxel v ts = none) :
    ∀ (fuel : ℕ) (cur : VolumeSeries) (prev : List DefoField) (iter : ℕ),
      WF cur V T → 1 ≤ fuel →
      (loopGo cfg raw fuel cur prev iter).fitted.getD v [] = raw.getD v []
  | 0, _, _, _, _, hfuel => by omega
  | fuel + 1, cur, prev, iter, hcur, _ => by
    have hstop : (fitSeries cfg.model raw cur).getD v [] = raw.getD v [] := by
      rw [fitSeries_getD cfg.model raw cur v (hcur.1 ▸ hvV), fitVoxelOut, hfail]
    have hco : WF (iterStep cfg raw cur).coreg V T := by
      have := iterStep_coreg_wf cfg raw cur
      rwa [hraw.1, seriesLen_of_WF hraw hV] at this
    rw [loopGo]
    split_ifs with h1 h2
    · exact hstop
    · exact hstop
    · exact loopGo_fitted_fallback cfg raw V T hraw hV hm v hvV hfail fuel
        (iterStep cfg raw cur).coreg (iterStep cfg raw cur).defos (iter + 1) hco (by omega)

/-- One-step unfolding of the loop at a positive remaining budget. -/
lemma loopGo_succ (cfg : Config) (raw : VolumeSeries) (fuel : ℕ)
    (cur : VolumeSeries) (prev : List DefoField) (iter : ℕ) :
    loopGo cfg raw (fuel + 1) cur prev iter =
      if tolLt (metricDist prev (iterStep cfg raw cur).defos) cfg.tol then
        ⟨(iterStep cfg raw cur).coreg, (iterStep cfg raw cur).defos,
         (iterStep cfg raw cur).fitted, (iterStep cfg raw cur).params,
         .Converged, iter + 1, metricDist prev (iterStep cfg raw cur).defos⟩
      else if fuel = 0 then
        ⟨(iterStep cfg raw cur).coreg, (iterStep cfg raw cur).defos,
         (iterStep cfg raw cur).fitted, (iterStep cfg raw cur).params,
         .MaxIterReached, iter + 1, metricDist prev (iterStep cfg raw cur).defos⟩
      else loopGo cfg raw fuel (iterStep cfg raw cur).coreg
        (iterStep cfg raw cur).defos (iter + 1) := rfl

/-! ### Concrete instances used by the witnesses -/

/-- Identity signal model: the reconstruction equals the input series. -/
def idModel : SignalModel := ⟨fun _ ts => some (ts, [])⟩

/-- A signal model that raises a per-voxel ModelFitError everywhere. -/
def failModel : SignalModel := ⟨fun _ _ => none⟩

/-- The identity signal model satisfies the shape contract. -/
lemma idModel_ok (T : ℕ) : ModelOk idModel T := by
  intro _ ts fp hlen hfp
  obtain rfl : (ts, ([] : List ℤ)) = fp := Option.some.inj hfp
  exact hlen

/-- The always-failing signal model satisfies the shape contract vacuously. -/
lemma failModel_ok (T : ℕ) : ModelOk failModel T := by
  intro _ _ _ _ hfp
  exact Option.noConfusion hfp

/-- Identity registration backend: zero deformation fields of the given
shape, and warping leaves the frame unchanged. -/
def idCoreg (V dim : ℕ) : Coregistrar :=
  ⟨fun _ _ => List.replicate V (List.replicate dim 0), fun _ f => f⟩

/-- Registration backend returning a fixed deformation field, with identity
warping. -/
def constCoreg (d : DefoField) : Coregistrar := ⟨fun _ _ => d, fun _ f => f⟩

/-- A small raw series: 2 voxels, series length 2. -/
def rawEx : VolumeSeries := [[1, 2], [3, 4]]

/-- A raw series of spatial shape (4,4,4) flattened to 64 voxels, series
length 3. -/
def rawEx64 : VolumeSeries := List.replicate 64 [1, 2, 3]

/-! ### Claims -/

/-- C1: for every input series and every configured iteration cap
maxit >= 1, the MDR loop performs at most maxit iterations (and at least
one): the cap is a hard stop that ends the loop whether or not the
tolerance was met, so the loop always terminates within the budget. -/
theorem C1_iteration_cap (cfg : Config) (raw : VolumeSeries)
    (h : 1 ≤ cfg.maxit) :
    (fit cfg raw).iterations ≤ cfg.maxit ∧ 1 ≤ (fit cfg raw).iterations := by
  constructor
  · exact le_trans
      (loopGo_iterations_le cfg raw cfg.maxit raw (initDefos cfg raw) 0) (by omega)
  · exact le_trans (by omega)
      (loopGo_iterations_ge cfg raw cfg.maxit raw (initDefos cfg raw) 0 h)

def cfgC1 : Config := ⟨idModel, idCoreg 2 1, 1, 3, .finite 0⟩

theorem C1_iteration_cap_witness :
    (fit cfgC1 rawEx).iterations ≤ cfgC1.maxit ∧ 1 ≤ (fit cfgC1 rawEx).iterations :=
  C1_iteration_cap cfgC1 rawEx (by decide)

def cfgC3 : Config := ⟨idModel, idCoreg 2 1, 1, 1, .finite 1⟩

/-- C3: with a 1-iteration cap the loop still returns a well-formed,
non-empty result: the coregistered and fitted series are well-formed with
the raw shape, there is one deformation field per frame and one parameter
entry per voxel, the coregistered series is non-empty, and exactly one
iteration was performed. -/
theorem C3_single_iteration_result (cfg : Config) (raw : VolumeSeries)
    (V T : ℕ) (hraw : WF raw V T) (hV : 0 < V) (_hT : 2 ≤ T)
    (hm : ModelOk cfg.model T) (hmax : cfg.maxit = 1) :
    WF (fit cfg raw).coreg V T ∧ WF (fit cfg raw).fitted V T ∧
    (fit cfg raw).defos.length = T ∧ (fit cfg raw).params.length = V ∧
    (fit cfg raw).coreg ≠ [] ∧ (fit cfg raw).iterations = 1 := by
  have hw := loopGo_wf cfg raw V T hraw hV hm cfg.maxit raw (initDefos cfg raw) 0 hraw
  have hguard := hw.2.2 (by omega)
  refine ⟨hw.1, hw.2.1, hguard.1, hguard.2, ?_, ?_⟩
  · intro hnil
    have : (fit cfg raw).coreg.length = V := hw.1.1
    rw [hnil] at this
    simp at this
    omega
  · have hle := loopGo_iterations_le cfg raw cfg.maxit raw (initDefos cfg raw) 0
    have hge := loopGo_iterations_ge cfg raw cfg.maxit raw (initDefos cfg raw) 0 (by omega)
    show (loopGo cfg raw cfg.maxit raw (initDefos cfg raw) 0).iterations = 1
    omega

theorem C3_single_iteration_result_witness :
    WF (fit cfgC3 rawEx).coreg 2 2 ∧ WF (fit cfgC3 rawEx).fitted 2 2 ∧
    (fit cfgC3 rawEx).defos.length = 2 ∧ (fit cfgC3 rawEx).params.length = 2 ∧
    (fit cfgC3 rawEx).coreg ≠ [] ∧ (fit cfgC3 rawEx).iterations = 1 :=
  C3_single_iteration_result cfgC3 rawEx 2 2 (by decide) (by decide) (by decide)
    (idModel_ok 2) rfl

/-- C4: the coregistered and fitted series returned by the MDR loop are
well-formed with exactly the raw input's voxel count and series length;
in particular the orchestrator's SignalModel fitting step preserves the
spatial shape and the series length of any well-formed input. -/
theorem C4_shape_invariant (cfg : Config) (raw : VolumeSeries) (V T : ℕ)
    (hraw : WF raw V T) (hV : 0 < V) (hm : ModelOk cfg.model T) :
    WF (fit cfg raw).coreg V T ∧ WF (fit cfg raw).fitted V T ∧
    ∀ cur, WF cur V T → WF (fitSeries cfg.model raw cur) V T := by
  have hw := loopGo_wf cfg raw V T hraw hV hm cfg.maxit raw (initDefos cfg raw) 0 hraw
  exact ⟨hw.1, hw.2.1, fun cur hcur => fitSeries_wf cfg.model raw cur V T hraw hcur hm⟩

theorem C4_shape_invariant_witness :
    WF (fit cfgC1 rawEx).coreg 2 2 ∧ WF (fit cfgC1 rawEx).fitted 2 2 ∧
    ∀ cur, WF cur 2 2 → WF (fitSeries cfgC1.model rawEx cur) 2 2 :=
  C4_shape_invariant cfgC1 rawEx 2 2 (by decide) (by decide) (idModel_ok 2)

/-- C5: if the signal model raises a per-voxel ModelFitError for every
voxel of a designated set, the loop does not abort: the returned fitted
series carries the defined fallback (the raw value) at those voxels, voxels
where the model succeeds carry the model output (the fallback is applied at
exactly the failing voxels), and the loop still runs to completion within
the cap; the Option-valued model interface converts every backend failure
at the fitting step, so none propagates past the iteration boundary. -/
theorem C5_fallback (cfg : Config) (raw : VolumeSeries) (V T : ℕ)
    (S : List ℕ) (hraw : WF raw V T) (hV : 0 < V) (hm : ModelOk cfg.model T)
    (hmax : 1 ≤ cfg.maxit)
    (hfail : ∀ v ∈ S, ∀ ts, cfg.model.fitVoxel v ts = none) :
    (∀ v ∈ S, v < V → (fit cfg raw).fitted.getD v [] = raw.getD v []) ∧
    (∀ cur (v : ℕ) fp, v < cur.length →
      cfg.model.fitVoxel v (cur.getD v []) = some fp →
      (fitSeries cfg.model raw cur).getD v [] = fp.1) ∧
    1 ≤ (fit cfg raw).iterations ∧ (fit cfg raw).iterations ≤ cfg.maxit := by
  refine ⟨?_, ?_, ?_, ?_⟩
  · intro v hvS hvV
    exact loopGo_fitted_fallback cfg raw V T hraw hV hm v hvV (hfail v hvS)
      cfg.maxit raw (initDefos cfg raw) 0 hraw hmax
  · intro cur v fp hv hfp
    rw [fitSeries_getD cfg.model raw cur v hv, fitVoxelOut, hfp]
  · exact le_trans (by omega)
      (loopGo_iterations_ge cfg raw cfg.maxit raw (initDefos cfg raw) 0 hmax)
  · exact le_trans
      (loopGo_iterations_le cfg raw cfg.maxit raw (initDefos cfg raw) 0) (by omega)

def cfgC5 : Config := ⟨failModel, idCoreg 2 1, 1, 1, .finite 1⟩

theorem C5_fallback_witness :
    (∀ v ∈ [0, 1], v < 2 → (fit cfgC5 rawEx).fitted.getD v [] = rawEx.getD v []) ∧
    (∀ cur (v : ℕ) fp, v < cur.length →
      cfgC5.model.fitVoxel v (cur.getD v []) = some fp →
      (fitSeries cfgC5.model rawEx cur).getD v [] = fp.1) ∧
    1 ≤ (fit cfgC5 rawEx).iterations ∧ (fit cfgC5 rawEx).iterations ≤ cfgC5.maxit :=
  C5_fallback cfgC5 rawEx 2 2 [0, 1] (by decide) (by decide) (failModel_ok 2)
    (by decide) (fun _ _ _ => rfl)

/-- C6: for a raw series of spatial shape (4,4,4) flattened to 64 voxels
with series length 3, run for one iteration with an identity signal model
(the reconstruction equals its input) and an identity registration (every
deformation field is zero and warping is the identity), the loop returns
the raw series as coregistered output, all-zero deformation fields, and a
convergence metric equal to 0. -/
theorem C6_identity_roundtrip (cfg : Config) (raw : VolumeSeries)
    (hraw : WF raw 64 3)
    (hreg : ∀ f r, cfg.coreg.register f r =
      List.replicate 64 (List.replicate cfg.dim 0))
    (hwarp : ∀ d f, cfg.coreg.warp d f = f)
    (hmax : cfg.maxit = 1) :
    (fit cfg raw).coreg = raw ∧
    (∀ d ∈ (fit cfg raw).defos, d = List.replicate 64 (List.replicate cfg.dim 0)) ∧
    (fit cfg raw).metric = 0 := by
  have hdef : (iterStep cfg raw raw).defos = initDefos cfg raw := by
    show (List.range (seriesLen raw)).map _ = _
    rw [initDefos, hraw.1]
    simp only [hreg]
  have hcoreg : (iterStep cfg raw raw).coreg = raw := by
    show (List.range raw.length).map _ = raw
    apply List.ext_getElem (by simp [hraw.1])
    intro v h1 h2
    rw [List.getElem_map, List.getElem_range]
    simp only [hwarp]
    have hv : v < raw.length := h2
    have hfr : ∀ t, (frameAt raw t).getD v 0 = (raw.getD v []).getD t 0 :=
      fun t => frameAt_getD raw t v hv
    simp only [hfr]
    rw [seriesLen_of_WF hraw (by omega),
      range_map_getD _ _ (getD_length_of_WF hraw (hraw.1 ▸ hv)),
      List.getD_eq_getElem _ _ hv]
  have hmetric : metricDist (initDefos cfg raw) (iterStep cfg raw raw).defos = 0 := by
    rw [hdef]
    exact metricDist_self _
  have hfit : fit cfg raw = loopGo cfg raw cfg.maxit raw (initDefos cfg raw) 0 := rfl
  rw [hfit, hmax, show (1 : ℕ) = 0 + 1 from rfl, loopGo_succ, hmetric]
  have hdz : ∀ d ∈ (iterStep cfg raw raw).defos,
      d = List.replicate 64 (List.replicate cfg.dim 0) := by
    intro d hd
    rw [hdef, initDefos, hraw.1] at hd
    rcases List.mem_map.1 hd with ⟨t, _, rfl⟩
    rfl
  split_ifs with h h0
  · exact ⟨hcoreg, hdz, rfl⟩
  · exact ⟨hcoreg, hdz, rfl⟩
  · exact absurd rfl h0

def cfgC6 : Config := ⟨idModel, idCoreg 64 3, 3, 1, .finite 1⟩

theorem C6_identity_roundtrip_witness :
    (fit cfgC6 rawEx64).coreg = rawEx64 ∧
    (∀ d ∈ (fit cfgC6 rawEx64).defos,
      d = List.replicate 64 (List.replicate cfgC6.dim 0)) ∧
    (fit cfgC6 rawEx64).metric = 0 :=
  C6_identity_roundtrip cfgC6 rawEx64 (by decide) (fun _ _ => rfl) (fun _ _ => rfl) rfl

/-- C7: a run in which iteration 2 is reached (iteration 1 did not fall
below the tolerance and the cap allows a second iteration) and iteration
2's deformation fields equal iteration 1's exactly has convergence metric 0
at iteration 2, which is below every tolerance strictly greater than zero,
so the loop stops in the Converged state at iteration 2. -/
theorem C7_repeated_fields_converge (cfg : Config) (raw : VolumeSeries)
    (hpos : tolPos cfg.tol) (hmax : 2 ≤ cfg.maxit)
    (h1 : tolLt (metricDist (initDefos cfg raw) (iterStep cfg raw raw).defos)
      cfg.tol = false)
    (heq : (iterStep cfg raw (iterStep cfg raw raw).coreg).defos =
      (iterStep cfg raw raw).defos) :
    (fit cfg raw).state = .Converged ∧ (fit cfg raw).iterations = 2 := by
  obtain ⟨k, hk⟩ : ∃ k, cfg.maxit = (k + 1) + 1 := ⟨cfg.maxit - 2, by omega⟩
  have hfit : fit cfg raw = loopGo cfg raw cfg.maxit raw (initDefos cfg raw) 0 := rfl
  rw [hfit, hk, loopGo_succ, h1]
  simp only [Bool.false_eq_true, if_false, Nat.succ_ne_zero]
  rw [loopGo_succ, heq, metricDist_self, tolLt_zero_of_pos cfg.tol hpos]
  simp

def cfgC7 : Config := ⟨idModel, constCoreg [[1]], 1, 2, .finite 1⟩

def rawOne : VolumeSeries := [[1, 2]]

theorem C7_repeated_fields_converge_witness :
    (fit cfgC7 rawOne).state = .Converged ∧ (fit cfgC7 rawOne).iterations = 2 :=
  C7_repeated_fields_converge cfgC7 rawOne
    (show (0 : ℤ) < 1 by norm_num) (by decide) (by decide) (by decide)

/-- C8: with the tolerance configured to plus infinity, the first
convergence check succeeds for the finite metric of iteration 1, so for
every input the loop stops in the Converged state after exactly one
iteration. -/
theorem C8_infinite_tolerance (cfg : Config) (raw : VolumeSeries)
    (hmax : 1 ≤ cfg.maxit) (htol : cfg.tol = .inf) :
    (fit cfg raw).state = .Converged ∧ (fit cfg raw).iterations = 1 := by
  obtain ⟨k, hk⟩ : ∃ k, cfg.maxit = k + 1 := ⟨cfg.maxit - 1, by omega⟩
  have hfit : fit cfg raw = loopGo cfg raw cfg.maxit raw (initDefos cfg raw) 0 := rfl
  rw [hfit, hk, loopGo_succ, htol]
  simp [tolLt]

def cfgC8 : Config := ⟨idModel, constCoreg [[1]], 1, 2, .inf⟩

theorem C8_infinite_tolerance_witness :
    (fit cfgC8 rawOne).state = .Converged ∧ (fit cfgC8 rawOne).iterations = 1 :=
  C8_infinite_tolerance cfgC8 rawOne (by decide) rfl

/-- C9: in every iteration body, the deformation field of frame t is the
result of registering the model-fitted frame t against the raw (measured)
frame t — never against a previous coregistered frame — and the new
coregistered series at frame t is obtained by applying that deformation
field to the raw frame t. -/
theorem C9_register_fitted_against_raw (cfg : Config) (raw cur : VolumeSeries)
    (t v : ℕ) (ht : t < seriesLen raw) (hv : v < raw.length) :
    (iterStep cfg raw cur).defos.getD t [] =
      cfg.coreg.register (frameAt (fitSeries cfg.model raw cur) t) (frameAt raw t) ∧
    ((iterStep cfg raw cur).coreg.getD v []).getD t 0 =
      (cfg.coreg.warp
        (cfg.coreg.register (frameAt (fitSeries cfg.model raw cur) t) (frameAt raw t))
        (frameAt raw t)).getD v 0 := by
  constructor
  · exact getD_range_map _ (seriesLen raw) t [] ht
  · have hrow : (iterStep cfg raw cur).coreg.getD v [] =
        (List.range (seriesLen raw)).map (fun t =>
          (cfg.coreg.warp
            (cfg.coreg.register (frameAt (fitSeries cfg.model raw cur) t) (frameAt raw t))
            (frameAt raw t)).getD v 0) :=
      getD_range_map _ raw.length v [] hv
    rw [hrow]
    exact getD_range_map _ (seriesLen raw) t 0 ht

theorem C9_register_fitted_against_raw_witness :
    (iterStep cfgC7 rawOne rawOne).defos.getD 0 [] =
      cfgC7.coreg.register (frameAt (fitSeries cfgC7.model rawOne rawOne) 0)
        (frameAt rawOne 0) ∧
    ((iterStep cfgC7 rawOne rawOne).coreg.getD 0 []).getD 0 0 =
      (cfgC7.coreg.warp
        (cfgC7.coreg.register (frameAt (fitSeries cfgC7.model rawOne rawOne) 0)
          (frameAt rawOne 0))
        (frameAt rawOne 0)).getD 0 0 :=
  C9_register_fitted_against_raw cfgC7 rawOne rawOne 0 0 (by decide) (by decide)

/-- C2: evaluation of the line-208 goodness-of-fit computation at a voxel
whose raw value is 0 for the whole (one-frame) series, with fitted value 1.
Because np.divide is called with a where mask but no out argument, the
masked entry is left uninitialized instead of being set to a sentinel: a
buffer that happens to hold 5 makes the output 5 (which is not the sentinel
0), while a zeroed buffer makes it 0 — the value at zero-raw voxels is
whatever the uninitialized memory held, contradicting the script's own
comment that the output there is zero. -/
theorem C2_chi_squared_uninitialized :
    chi_squared_map (fun _ _ => 5) [[1]] [[0]] = [5] ∧
    chi_squared_map (fun _ _ => 0) [[1]] [[0]] = [0] ∧ (5 : ℚ) ≠ 0 := by
  refine ⟨?_, ?_, by norm_num⟩ <;>
    norm_num [chi_squared_map, chi_squared, npDivideWhere, List.range_succ]

/-- C10 counterexample: with a single slice, grid_size 1 = 1, so
plt.subplots(1, 1) with the default squeeze=True returns a scalar Axes
object and the loop's first subscript axes1[row, col] raises a TypeError:
the plotting loop produces no panel states at all, and in particular
slice 0 is never rendered — refuting the claim at the positive slice
count n = 1. -/
theorem C10_single_slice_crash :
    0 < 1 ∧ grid_size 1 = 1 ∧ plotPanels 1 = none := by
  refine ⟨Nat.one_pos, ?_, ?_⟩ <;> decide

/-- C10 (amended to slice counts of at least 2, where the squeezed axes
object really is a 2-D grid): grid_size = ceil(sqrt(num_slices)) satisfies
grid_size * grid_size >= num_slices, and the plotting loop completes and
renders each of the num_slices slices exactly once — slice i in panel i, at
row i div grid_size and column i mod grid_size — and turns off every
remaining panel.  For num_slices = 1 the loop instead raises a TypeError
and renders nothing. -/
theorem C10_panel_grid (n : ℕ) (hn : 2 ≤ n) :
    n ≤ grid_size n * grid_size n ∧
    ∃ panels, plotPanels n = some panels ∧
      (∀ i, i < n → panels.getD i .off = .rendered i ∧
        panelRow n i = i / grid_size n ∧ panelCol n i = i % grid_size n) ∧
      (∀ j, n ≤ j → j < grid_size n * grid_size n → panels.getD j .off = .off) ∧
      (∀ i j, j < grid_size n * grid_size n →
        panels.getD j .off = .rendered i → j = i) := by
  have hsq : n ≤ grid_size n * grid_size n := by
    rw [grid_size]
    split_ifs with h
    · exact le_of_eq h.symm
    · exact le_of_lt (Nat.lt_succ_sqrt n)
  have hg : grid_size n ≠ 1 := by
    intro h
    rw [h] at hsq
    omega
  refine ⟨hsq, (List.range (grid_size n * grid_size n)).map (fun i =>
    if i < n then Panel.rendered i else Panel.off), ?_, ?_, ?_, ?_⟩
  · rw [plotPanels, if_neg hg]
  · intro i hi
    refine ⟨?_, rfl, rfl⟩
    rw [getD_range_map _ _ _ _ (lt_of_lt_of_le hi hsq), if_pos hi]
  · intro j hj hj2
    rw [getD_range_map _ _ _ _ hj2, if_neg (by omega)]
  · intro i j hj2 hrend
    rw [getD_range_map _ _ _ _ hj2] at hrend
    by_cases hjn : j < n
    · rw [if_pos hjn] at hrend
      exact Panel.rendered.inj hrend
    · rw [if_neg hjn] at hrend
      exact Panel.noConfusion hrend

theorem C10_panel_grid_witness :
    5 ≤ grid_size 5 * grid_size 5 ∧
    ∃ panels, plotPanels 5 = some panels ∧
      (∀ i, i < 5 → panels.getD i .off = .rendered i ∧
        panelRow 5 i = i / grid_size 5 ∧ panelCol 5 i = i % grid_size 5) ∧
      (∀ j, 5 ≤ j → j < grid_size 5 * grid_size 5 → panels.getD j .off = .off) ∧
      (∀ i j, j < grid_size 5 * grid_size 5 →
        panels.getD j .off = .rendered i → j = i) :=
  C10_panel_grid 5 (by decide)

end Mdreg
